import Mathlib

/-!
Shallow embedding of the job-application bot (`src/app.py`) and proofs about
the claims of its specification.

Conventions used throughout this development:
* Machine strings are Lean `String`s; character work happens on `List Char`.
* Python dicts whose key order matters (JSON objects, the ledger) are
  association lists `List (String × _)` with insertion-order semantics;
  `setAssoc` mirrors `d[k] = v` (overwrite in place, append when fresh).
* Fallible Python code is `Option`/`Except`; an uncaught exception is an
  `Except.error`.
* Wall-clock time is a `Nat` counted in tenths of a second, so
  `time.sleep(0.5)` advances the clock by 5 and a configured
  `max_idle_seconds` of `s` seconds enters the model as `10 * s` ticks.
* JSON numbers are modelled as integers and string escapes as the common
  single-character escapes; the ledger data this program writes and reads
  stays inside that fragment.
-/

set_option maxHeartbeats 1000000

namespace LinkedinBot

/-- JSON values, the data `json.load`/`json.dump` traffic in. -/
inductive Json where
  | null : Json
  | bool (b : Bool) : Json
  | num (n : Int) : Json
  | str (s : String) : Json
  | arr (xs : List Json) : Json
  | obj (fields : List (String × Json)) : Json

instance exceptDecEq {ε α : Type} [DecidableEq ε] [DecidableEq α] :
    DecidableEq (Except ε α) := fun a b =>
  match a, b with
  | .ok x, .ok y =>
      if h : x = y then .isTrue (by rw [h]) else .isFalse (by simp [h])
  | .error x, .error y =>
      if h : x = y then .isTrue (by rw [h]) else .isFalse (by simp [h])
  | .ok _, .error _ => .isFalse (by simp)
  | .error _, .ok _ => .isFalse (by simp)

/-- `d[k] = v` on a Python dict held as an insertion-ordered assoc list. -/
def setAssoc {α : Type} (l : List (String × α)) (k : String) (v : α) :
    List (String × α) :=
  match l with
  | [] => [(k, v)]
  | (k2, v2) :: rest =>
      if k2 = k then (k, v) :: rest else (k2, v2) :: setAssoc rest k v

/-- JSON whitespace skipping. -/
def skipWs : List Char → List Char
  | [] => []
  | c :: cs =>
      if c = ' ' ∨ c = '\t' ∨ c = '\n' ∨ c = '\r' then skipWs cs else c :: cs

/-- Longest digit prefix and the remainder. -/
def takeDigits : List Char → List Char × List Char
  | [] => ([], [])
  | c :: cs =>
      if c.isDigit then
        let (ds, rest) := takeDigits cs
        (c :: ds, rest)
      else ([], c :: cs)

/-- Numeric value of a digit list (most significant first). -/
def digitsToNat : List Char → Nat → Nat
  | [], acc => acc
  | c :: cs, acc => digitsToNat cs (acc * 10 + (c.toNat - 48))

/-- One-character JSON string escapes (`\uXXXX` is outside the fragment). -/
def unescape (c : Char) : Option Char :=
  if c = '"' then some '"'
  else if c = '\\' then some '\\'
  else if c = '/' then some '/'
  else if c = 'n' then some '\n'
  else if c = 't' then some '\t'
  else if c = 'r' then some '\r'
  else if c = 'b' then some (Char.ofNat 8)
  else if c = 'f' then some (Char.ofNat 12)
  else none

/-- Body of a JSON string literal after the opening quote. -/
def parseStringBody : List Char → Option (List Char × List Char)
  | [] => none
  | '"' :: cs => some ([], cs)
  | '\\' :: [] => none
  | '\\' :: e :: cs => do
      let c ← unescape e
      let (body, rest) ← parseStringBody cs
      some (c :: body, rest)
  | c :: cs => do
      let (body, rest) ← parseStringBody cs
      some (c :: body, rest)

mutual

/-- Recursive-descent JSON value parser (fuel-indexed; `json_load` supplies
fuel proportional to the input length, ample for the ledger fragment). -/
def parseValue : Nat → List Char → Option (Json × List Char)
  | 0, _ => none
  | fuel + 1, cs =>
      match skipWs cs with
      | 'n' :: 'u' :: 'l' :: 'l' :: rest => some (.null, rest)
      | 't' :: 'r' :: 'u' :: 'e' :: rest => some (.bool true, rest)
      | 'f' :: 'a' :: 'l' :: 's' :: 'e' :: rest => some (.bool false, rest)
      | '"' :: rest => do
          let (body, rest2) ← parseStringBody rest
          some (.str (String.mk body), rest2)
      | '[' :: rest =>
          (match skipWs rest with
           | ']' :: rest2 => some (.arr [], rest2)
           | rest2 => do
               let (x, r) ← parseValue fuel rest2
               parseElems fuel [x] r)
      | '{' :: rest =>
          (match skipWs rest with
           | '}' :: rest2 => some (.obj [], rest2)
           | rest2 => do
               let (kv, r) ← parseMember fuel rest2
               parseMembers fuel [kv] r)
      | '-' :: rest =>
          let (ds, rest2) := takeDigits rest
          if ds.isEmpty then none
          else some (.num (-(digitsToNat ds 0 : Int)), rest2)
      | c :: rest =>
          if c.isDigit then
            let (ds, rest2) := takeDigits (c :: rest)
            some (.num (digitsToNat ds 0 : Int), rest2)
          else none
      | [] => none

/-- Array elements after the first one. -/
def parseElems : Nat → List Json → List Char → Option (Json × List Char)
  | 0, _, _ => none
  | fuel + 1, acc, cs =>
      match skipWs cs with
      | ']' :: rest => some (.arr acc, rest)
      | ',' :: rest => do
          let (x, r) ← parseValue fuel rest
          parseElems fuel (acc ++ [x]) r
      | _ => none

/-- One `"key": value` object member. -/
def parseMember : Nat → List Char → Option ((String × Json) × List Char)
  | 0, _ => none
  | fuel + 1, cs =>
      match skipWs cs with
      | '"' :: rest => do
          let (body, rest2) ← parseStringBody rest
          match skipWs rest2 with
          | ':' :: rest3 => do
              let (v, r) ← parseValue fuel rest3
              some ((String.mk body, v), r)
          | _ => none
      | _ => none

/-- Object members after the first one. -/
def parseMembers :
    Nat → List (String × Json) → List Char → Option (Json × List Char)
  | 0, _, _ => none
  | fuel + 1, acc, cs =>
      match skipWs cs with
      | '}' :: rest => some (.obj acc, rest)
      | ',' :: rest => do
          let (kv, r) ← parseMember fuel rest
          parseMembers fuel (acc ++ [kv]) r
      | _ => none

end

/-- `json.load` on a whole document: one value, then only whitespace. -/
def json_load (s : String) : Option Json :=
  match parseValue (4 * s.length + 16) s.toList with
  | some (j, rest) => if skipWs rest = [] then some j else none
  | none => none

/-- Escapes of `json.dump` restricted to the ASCII fragment the ledger uses. -/
def escapeChar (c : Char) : String :=
  if c = '"' then "\\\""
  else if c = '\\' then "\\\\"
  else if c = '\n' then "\\n"
  else if c = '\t' then "\\t"
  else if c = '\r' then "\\r"
  else String.singleton c

def escapeString (s : String) : String :=
  String.join (s.toList.map escapeChar)

def spaces (n : Nat) : String :=
  String.mk (List.replicate n ' ')

mutual

/-- `json.dump(·, indent=2)` rendering at indentation level `ind`. -/
def renderJson (ind : Nat) : Json → String
  | .null => "null"
  | .bool true => "true"
  | .bool false => "false"
  | .num n => toString n
  | .str s => "\"" ++ escapeString s ++ "\""
  | .arr [] => "[]"
  | .arr (x :: xs) =>
      "[\n" ++ String.intercalate ",\n" (renderArr (ind + 2) (x :: xs)) ++
        "\n" ++ spaces ind ++ "]"
  | .obj [] => "\x7b\x7d"
  | .obj (f :: fs) =>
      "\x7b\n" ++ String.intercalate ",\n" (renderObj (ind + 2) (f :: fs)) ++
        "\n" ++ spaces ind ++ "\x7d"

def renderArr (ind : Nat) : List Json → List String
  | [] => []
  | x :: xs => (spaces ind ++ renderJson ind x) :: renderArr ind xs

def renderObj (ind : Nat) : List (String × Json) → List String
  | [] => []
  | (k, v) :: fs =>
      (spaces ind ++ "\"" ++ escapeString k ++ "\": " ++ renderJson ind v) ::
        renderObj ind fs

end

/-- Lexicographic order on code points, the order Python compares `str`s in. -/
def charListLe : List Char → List Char → Bool
  | [], _ => true
  | _ :: _, [] => false
  | a :: as, b :: bs =>
      if a.toNat < b.toNat then true
      else if b.toNat < a.toNat then false
      else charListLe as bs

def strLe (a b : String) : Bool := charListLe a.toList b.toList

/-- Stable insertion of one member into a key-sorted member list. -/
def orderedInsertKey (p : String × Json) :
    List (String × Json) → List (String × Json)
  | [] => [p]
  | q :: rest =>
      if strLe p.1 q.1 then p :: q :: rest else q :: orderedInsertKey p rest

/-- Stable sort by key, the effect of `sorted(d.keys())` ordering a dump. -/
def sortByKey : List (String × Json) → List (String × Json)
  | [] => []
  | p :: rest => orderedInsertKey p (sortByKey rest)

mutual

/-- `sort_keys=True`: every object's members sorted by key, recursively.
Python's stable sort is modelled by insertion sort. -/
def sortKeysJson : Json → Json
  | .null => .null
  | .bool b => .bool b
  | .num n => .num n
  | .str s => .str s
  | .arr xs => .arr (sortKeysArr xs)
  | .obj fs => .obj (sortByKey (sortKeysFields fs))

def sortKeysArr : List Json → List Json
  | [] => []
  | x :: xs => sortKeysJson x :: sortKeysArr xs

def sortKeysFields : List (String × Json) → List (String × Json)
  | [] => []
  | (k, v) :: fs => (k, sortKeysJson v) :: sortKeysFields fs

end

/-- `json.dump(state, f, indent=2, sort_keys=True)` as a string. -/
def json_dump (j : Json) : String := renderJson 0 (sortKeysJson j)

/-- Keys of a top-level JSON object, in order. -/
def objKeys : Json → List String
  | .obj fs => fs.map Prod.fst
  | _ => []

/-- The empty ledger `{"jobs": {}}`. -/
def emptyLedgerJson : Json := .obj [("jobs", .obj [])]

/-- The ledger file format: a JSON object with a `"jobs"` object inside. -/
def isLedgerShaped : Json → Bool
  | .obj fs =>
      match fs.lookup "jobs" with
      | some (.obj _) => true
      | _ => false
  | _ => false

/-- `load_state` (src/app.py:23). The file argument is `none` when the path
does not exist and `some content` otherwise; only `json.JSONDecodeError`
(our parse failure) is caught. -/
def load_state (file : Option String) : Json :=
  match file with
  | none => emptyLedgerJson
  | some content =>
      match json_load content with
      | some j => j
      | none => emptyLedgerJson

/-- `os.path.dirname`: the part of the path before the final slash, with
trailing slashes stripped unless the result is all slashes. -/
def dirname (p : String) : String :=
  let cs := p.toList
  let i := (List.range cs.length).foldl
    (fun acc j => if cs.get! j = '/' then j + 1 else acc) 0
  let head := cs.take i
  if head ≠ [] ∧ ¬ head.all (· = '/') then
    String.mk (head.reverse.dropWhile (· = '/')).reverse
  else
    String.mk head

/-- A file system: directories known to exist and file contents by path. -/
structure FS where
  dirs : List String
  files : List (String × String)
deriving Repr, DecidableEq

/-- Did the call return normally? -/
def isOkE (r : Except String FS) : Bool :=
  match r with
  | .ok _ => true
  | .error _ => false

/-- Files of the resulting file system (empty on a raised call). -/
def savedFiles (r : Except String FS) : List (String × String) :=
  match r with
  | .ok fs => fs.files
  | .error _ => []

/-- Directories of the resulting file system (empty on a raised call). -/
def savedDirs (r : Except String FS) : List String :=
  match r with
  | .ok fs => fs.dirs
  | .error _ => []

/-- `os.makedirs(d, exist_ok=True)`: raises `FileNotFoundError` on the empty
path, otherwise ensures the directory exists. -/
def makedirs (fs : FS) (d : String) : Except String FS :=
  if d = "" then .error "FileNotFoundError"
  else .ok { fs with dirs := if d ∈ fs.dirs then fs.dirs else d :: fs.dirs }

/-- `save_state` (src/app.py:33): make the parent directory, then overwrite
the file with the pretty-printed, key-sorted JSON dump. -/
def save_state (path : String) (state : Json) (fs : FS) : Except String FS :=
  match makedirs fs (dirname path) with
  | .error e => .error e
  | .ok fs2 => .ok { fs2 with files := setAssoc fs2.files path (json_dump state) }

/-! ### Regular expressions

A small backtracking matcher covering exactly the constructs the Python
patterns in `src/app.py` use: literals, character classes (`\d`, `\s`, `.`),
alternation, concatenation, `*`/`+`, and the zero-width word boundary `\b`.
Matching is fuel-indexed; `research` (the analogue of `re.search`) tries
every start position. -/

inductive Rx where
  | eps : Rx
  | chr (c : Char) : Rx
  | any : Rx
  | cls (digit : Bool) (space : Bool) : Rx
  | cat (r1 r2 : Rx) : Rx
  | alt (r1 r2 : Rx) : Rx
  | star (r : Rx) : Rx
  | wordB : Rx

/-- Python `\w` (ASCII fragment): letters, digits, underscore. -/
def isWordChar (c : Char) : Bool :=
  c.isAlpha || c.isDigit || c = '_'

def isSpaceChar (c : Char) : Bool :=
  c = ' ' || c = '\t' || c = '\n' || c = '\r'

/-- Does a word boundary fall between `prev` and the next character? -/
def atBoundary (prev : Option Char) (next : Option Char) : Bool :=
  let pw := match prev with | none => false | some c => isWordChar c
  let nw := match next with | none => false | some c => isWordChar c
  pw != nw

def clsMatches (digit : Bool) (space : Bool) (c : Char) : Bool :=
  if digit then c.isDigit else if space then isSpaceChar c else false

/-- Backtracking matcher in continuation-passing style. `prev` is the
character just before the current position (for `\b`). -/
def rmatch : Nat → Rx → Option Char → List Char →
    (Option Char → List Char → Bool) → Bool
  | 0, _, _, _, _ => false
  | fuel + 1, r, prev, s, k =>
      match r with
      | .eps => k prev s
      | .chr c =>
          (match s with
           | [] => false
           | c2 :: rest => c = c2 && k (some c2) rest)
      | .any =>
          (match s with
           | [] => false
           | c2 :: rest => k (some c2) rest)
      | .cls d sp =>
          (match s with
           | [] => false
           | c2 :: rest => clsMatches d sp c2 && k (some c2) rest)
      | .cat r1 r2 =>
          rmatch fuel r1 prev s (fun p2 s2 => rmatch fuel r2 p2 s2 k)
      | .alt r1 r2 => rmatch fuel r1 prev s k || rmatch fuel r2 prev s k
      | .star r1 =>
          k prev s ||
            rmatch fuel r1 prev s (fun p2 s2 =>
              decide (s2.length < s.length) && rmatch fuel (.star r1) p2 s2 k)
      | .wordB => atBoundary prev s.head? && k prev s

/-- Fuel that is ample for the short card texts this program matches. -/
def rxFuel (s : List Char) : Nat := 100 * (s.length + 2)

/-- `re.search(r, s)` with the match anchored at the current position. -/
def rmatchHere (r : Rx) (prev : Option Char) (s : List Char) : Bool :=
  rmatch (rxFuel s) r prev s (fun _ _ => true)

def researchAux (r : Rx) : Option Char → List Char → Bool
  | prev, [] => rmatchHere r prev []
  | prev, c :: rest => rmatchHere r prev (c :: rest) || researchAux r (some c) rest

/-- `re.search(r, s) is not None`. -/
def research (r : Rx) (s : List Char) : Bool := researchAux r none s

/-- Concatenation of a list of regexes. -/
def rcat : List Rx → Rx
  | [] => .eps
  | [r] => r
  | r :: rest => .cat r (rcat rest)

/-- Literal word as a regex. -/
def rlit (w : String) : Rx := rcat (w.toList.map Rx.chr)

/-- Alternation of a list of regexes (empty alternation never matches a
character; the patterns below never build it empty). -/
def ralts : List Rx → Rx
  | [] => .eps
  | [r] => r
  | r :: rest => .alt r (ralts rest)

/-- `r+` as `r · r*`. -/
def rplus (r : Rx) : Rx := .cat r (.star r)

/-! ### Listing extractor: recently-applied detection (src/app.py:564) -/

/-- `text.split()`: maximal runs of non-whitespace characters. -/
def splitWsAux : List Char → List Char → List (List Char)
  | [], acc => if acc.isEmpty then [] else [acc.reverse]
  | c :: rest, acc =>
      if isSpaceChar c then
        if acc.isEmpty then splitWsAux rest []
        else acc.reverse :: splitWsAux rest []
      else splitWsAux rest (c :: acc)

/-- `" ".join(text.split()).lower()` (ASCII lowering). -/
def normalizeCardText (s : String) : List Char :=
  (String.intercalate " " ((splitWsAux s.toList []).map String.mk)).toList.map
    Char.toLower

/-- Pattern `\bapplied\b.*\bago\b`. -/
def appliedAgoRx : Rx :=
  rcat [.wordB, rlit "applied", .wordB, .star .any, .wordB, rlit "ago", .wordB]

/-- Pattern `\b(\d+|a|an|few)\b.*\b(minute|minutes|hour|hours)\b`. -/
def quantityUnitRx : Rx :=
  rcat [.wordB, ralts [rplus (.cls true false), rlit "a", rlit "an", rlit "few"],
    .wordB, .star .any, .wordB,
    ralts [rlit "minute", rlit "minutes", rlit "hour", rlit "hours"], .wordB]

/-- Pattern `\b\d+\s*(m|h)\b`. -/
def compactUnitRx : Rx :=
  rcat [.wordB, rplus (.cls true false), .star (.cls false true),
    ralts [.chr 'm', .chr 'h'], .wordB]

/-- `is_recently_applied_card` (src/app.py:564). The argument is the result
of `card.text_content()`: `.error` when the driver call raised, otherwise
the optional text. -/
def is_recently_applied_card (textResult : Except Unit (Option String)) :
    Bool :=
  match textResult with
  | .error _ => false
  | .ok otext =>
      let t := normalizeCardText (otext.getD "")
      if research appliedAgoRx t then
        if research quantityUnitRx t then true
        else if research compactUnitRx t then true
        else false
      else false

/-! ### Locator fallback (src/app.py:56, src/app.py:529)

A page is modelled as a map from selector strings to the element lists the
driver would return; an element carries its visibility and a tag so that
distinct elements can be told apart. -/

structure Element where
  visible : Bool
  tag : String
deriving Repr, DecidableEq

def locSel1 : String := "input[aria-label=\x27City, state, or zip code\x27]"
def locSel2 : String := "input[aria-label=\x27Location\x27]"
def locSel3 : String := "input[placeholder*=\x27Location\x27]"

def locationInputSelectors : List String := [locSel1, locSel2, locSel3]

/-- First selector with `count() > 0` wins; its first element is taken.
No visibility test appears in either cited loop. -/
def findFirstMatch (locator : String → List Element) :
    List String → Option Element
  | [] => none
  | sel :: rest =>
      match locator sel with
      | [] => findFirstMatch locator rest
      | e :: _ => some e

/-- The location-input selection loop of `apply_location_filter`
(src/app.py:62-69); `none` models the `RuntimeError` raised when no
selector matches. -/
def locate_location_input (locator : String → List Element) : Option Element :=
  findFirstMatch locator locationInputSelectors

def cardSel1 : String := "ul.jobs-search-results__list li"
def cardSel2 : String := "div.jobs-search-results-list ul li"
def cardSel3 : String := "div.jobs-search-results-list__content ul li"

def jobCardSelectors : List String :=
  [cardSel1, cardSel2, cardSel3,
   "ul.scaffold-layout__list-container li",
   "div.scaffold-layout__list-detail-inner ul li",
   "li[data-occludable-job-id]",
   "li[data-job-id]",
   "div.job-card-container",
   "div[data-occludable-job-id]",
   "div[data-job-id]"]

/-- Locator list returned per selector (a whole locator, not one element). -/
def findFirstLoc (locator : String → List Element) :
    List String → Option (List Element)
  | [] => none
  | sel :: rest =>
      match locator sel with
      | [] => findFirstLoc locator rest
      | e :: es => some (e :: es)

/-- `get_job_cards` (src/app.py:529): first selector with a non-zero count;
the trailing default locator is empty when reached. -/
def get_job_cards (locator : String → List Element) : List Element :=
  match findFirstLoc locator jobCardSelectors with
  | some es => es
  | none => []

/-- A page where the first location selector matches only an invisible
element while the third matches a visible one. -/
def C8page : String → List Element := fun sel =>
  if sel = locSel1 then [⟨false, "first-invisible"⟩]
  else if sel = locSel3 then [⟨true, "third-visible"⟩]
  else []

/-- A page where only the third selector of each resolver matches. -/
def C8pageW : String → List Element := fun sel =>
  if sel = locSel3 then [⟨true, "loc-input"⟩]
  else if sel = cardSel3 then [⟨true, "job-card"⟩]
  else []

/-! ### Easy-apply filter (src/app.py:222) and filter applicator (src/app.py:484)

The page is reduced to the state the easy-apply filter logic observes and
mutates: whether the easy-apply-only filter is on (`filterOn`), which is what
a present top-bar toggle reports through `aria-pressed` and what a panel
checkbox reports through its checked state, plus which controls exist. -/

structure EAPage where
  filterOn : Bool
  topButton : Bool
  panelOk : Bool
  panelCheckbox : Bool
  panelLabel : Bool
deriving Repr, DecidableEq

/-- `apply_easy_apply_filter` (src/app.py:222). Top-bar toggle: click only
when `aria-pressed != "true"` (a click flips the toggle). Panel fallback:
`check(force=True)` clicks only when unchecked; the label/container
fallback click always toggles. Errors are the `RuntimeError`s raised. -/
def apply_easy_apply_filter (useAllFilters : Bool) (p : EAPage) :
    Except String (EAPage × Bool) :=
  if p.topButton then
    let pressed : Option String := some (if p.filterOn then "true" else "false")
    if pressed ≠ some "true" then .ok ({ p with filterOn := ¬ p.filterOn }, true)
    else .ok (p, true)
  else if ¬ useAllFilters then .error "Top-bar Easy Apply not found"
  else if ¬ p.panelOk then .error "Filters panel not found"
  else if p.panelCheckbox then
    .ok (if p.filterOn then (p, true) else ({ p with filterOn := true }, true))
  else if p.panelLabel then
    .ok ({ p with filterOn := ¬ p.filterOn }, true)
  else .error "Easy Apply checkbox not found in filters panel"

/-- The two back-to-back invocations in `apply_filters` (src/app.py:513-514);
the second runs only when the first did not raise. -/
def applyEasyApplyTwice (useAllFilters : Bool) (p : EAPage) :
    Except String (EAPage × Bool) :=
  match apply_easy_apply_filter useAllFilters p with
  | .error e => .error e
  | .ok (p1, _) => apply_easy_apply_filter useAllFilters p1

/-- The `filters` config section as `apply_filters` reads it. An absent or
falsy `location`/`time_posted` is `none`; `distancePresent`/`distanceTruthy`
model membership and truthiness of the `distance` key. -/
structure Filters where
  location : Option String
  distancePresent : Bool
  distanceTruthy : Bool
  time_posted : Option String
  easy_apply : Bool
  use_all_filters : Bool
deriving Repr, DecidableEq

/-- Outcomes of the three filter helpers that this model keeps abstract
(`apply_location_filter`, `clear_distance_filter`,
`apply_date_posted_filter`): either a returned Bool or a raised message. -/
structure FilterEnv where
  locationResult : Except String Bool
  distanceResult : Except String Bool
  dateResult : Except String Bool
  eaPage : EAPage

structure FiltersOutcome where
  attempts : List String
  failures : List String
  blocked : Bool
  page : EAPage
deriving Repr, DecidableEq

/-- The `location` block of `apply_filters` (src/app.py:489-496): attempts
made and failures recorded. -/
def locationStep (env : FilterEnv) (filters : Filters) :
    List String × List String :=
  match filters.location with
  | none => ([], [])
  | some _ =>
      match env.locationResult with
      | .ok _ => (["location"], [])
      | .error e => (["location"], ["location (" ++ e ++ ")"])

/-- The `distance` block (src/app.py:498-502), guarded by key presence and
falsiness of the value. -/
def distanceStep (env : FilterEnv) (filters : Filters) :
    List String × List String :=
  if filters.distancePresent ∧ ¬ filters.distanceTruthy then
    match env.distanceResult with
    | .ok _ => (["distance"], [])
    | .error e => (["distance"], ["distance (" ++ e ++ ")"])
  else ([], [])

/-- The `time_posted` block (src/app.py:503-510). -/
def dateStep (env : FilterEnv) (filters : Filters) :
    List String × List String :=
  match filters.time_posted with
  | none => ([], [])
  | some _ =>
      match env.dateResult with
      | .ok _ => (["time_posted"], [])
      | .error e => (["time_posted"], ["time_posted (" ++ e ++ ")"])

/-- The `easy_apply` block (src/app.py:511-519): the helper is invoked
twice inside one try, so the second invocation runs only when the first
did not raise. -/
def eaStep (env : FilterEnv) (filters : Filters) :
    List String × List String × EAPage :=
  if filters.easy_apply then
    match apply_easy_apply_filter filters.use_all_filters env.eaPage with
    | .error e => (["easy_apply"], ["easy_apply (" ++ e ++ ")"], env.eaPage)
    | .ok (p1, _) =>
        match apply_easy_apply_filter filters.use_all_filters p1 with
        | .error e =>
            (["easy_apply", "easy_apply"], ["easy_apply (" ++ e ++ ")"], p1)
        | .ok (p2, _) => (["easy_apply", "easy_apply"], [], p2)
  else ([], [], env.eaPage)

/-- `apply_filters` (src/app.py:484): four independently guarded blocks, each
in its own try/except that records `"<name> (<reason>)"`; afterwards the
operator prompt blocks iff the failure list is non-empty. `attempts`
records one entry per helper invocation. -/
def apply_filters (env : FilterEnv) (filters : Filters) : FiltersOutcome :=
  let l := locationStep env filters
  let d := distanceStep env filters
  let t := dateStep env filters
  let e := eaStep env filters
  let failures := l.2 ++ d.2 ++ t.2 ++ e.2.1
  { attempts := l.1 ++ d.1 ++ t.1 ++ e.1
    failures := failures
    blocked := ¬ failures.isEmpty
    page := e.2.2 }

/-- Extracts the resulting filter state of an easy-apply invocation. -/
def eaFilterOn (r : Except String (EAPage × Bool)) : Option Bool :=
  match r with
  | .ok (p, _) => some p.filterOn
  | .error _ => none

/-- An environment where every filter helper succeeds (top-bar toggle
present, initially unpressed). -/
def envAllOk : FilterEnv :=
  { locationResult := .ok true
    distanceResult := .ok true
    dateResult := .ok true
    eaPage := ⟨false, true, false, false, false⟩ }

/-- A configuration enabling all four filters. -/
def filtersAll : Filters :=
  { location := some "Berlin"
    distancePresent := true
    distanceTruthy := false
    time_posted := some "past week"
    easy_apply := true
    use_all_filters := true }

/-! ### Apply wizard engine (src/app.py:926)

Clock ticks are tenths of a second. `WizardEnv.view t` is what the dialog
shows at tick `t`; `opTime t` is how long an operator prompt issued at `t`
blocks. `Behavior.max_idle` is `max_idle_seconds` in ticks. -/

structure Behavior where
  pause_on_unfilled : Bool
  max_idle : Nat
  auto_submit : Bool
deriving Repr, DecidableEq

structure DialogView where
  visible : Bool
  submitVisible : Bool
  reviewVisible : Bool
  nextVisible : Bool
  errorVisible : Bool
  doneVisible : Bool
deriving Repr, DecidableEq

structure WizardEnv where
  view : Nat → DialogView
  opTime : Nat → Nat

/-- `wait_for_modal_close` (src/app.py:696): poll every half second; give up
when a non-zero ceiling is exceeded (`max_wait_seconds and ...` — a zero
ceiling is falsy and never fires). -/
def wait_for_modal_close :
    Nat → WizardEnv → Nat → Nat → Nat → Option (Bool × Nat)
  | 0, _, _, _, _ => none
  | fuel + 1, env, maxWait, start, now =>
      if (env.view now).visible then
        let t2 := now + 5
        if maxWait ≠ 0 ∧ t2 - start > maxWait then some (false, t2)
        else wait_for_modal_close fuel env maxWait start t2
      else some (true, now)

/-- `click_done_if_present` (src/app.py:705): wait up to 8 seconds for a
visible Done control, clicking it when it shows; any failure yields false. -/
def click_done_wait : Nat → WizardEnv → Nat → Nat → Bool × Nat
  | 0, _, _, now => (false, now)
  | fuel + 1, env, start, now =>
      if (env.view now).doneVisible then (true, now)
      else if 80 ≤ now - start then (false, now)
      else click_done_wait fuel env start (now + 1)

/-- Fuel ample for one `wait_for_modal_close` run at ceiling `m`. -/
def waitFuel (m : Nat) : Nat := m + 2

/-- `complete_easy_apply` (src/app.py:926): the wizard loop. `lastAction` is
the tick of the last successful control interaction, `now` the clock. The
auto-fill and follow-company passes are best-effort with exceptions
swallowed and do not touch the control flow modelled here; the post-close
Done click (src/app.py:968-970, 980-982) changes neither status nor clock.
`none` models an execution that outruns the given fuel. -/
def complete_easy_apply :
    Nat → Behavior → WizardEnv → Nat → Nat → Option (String × Nat)
  | 0, _, _, _, _ => none
  | fuel + 1, b, env, lastAction, now =>
      let v := env.view now
      if ¬ v.visible then some ("closed", now)
      else if v.submitVisible then
        if b.auto_submit then
          let t1 := now + 20 + 5
          if (env.view t1).errorVisible then
            if b.pause_on_unfilled then
              complete_easy_apply fuel b env lastAction (t1 + env.opTime t1)
            else
              complete_easy_apply fuel b env lastAction t1
          else
            let t2 := (click_done_wait 81 env t1 t1).2
            match wait_for_modal_close (waitFuel b.max_idle) env b.max_idle t2 t2 with
            | some (false, t3) => some ("timeout", t3)
            | some (true, t3) => some ("submitted", t3)
            | none => none
        else
          let t2 := (click_done_wait 81 env now now).2
          match wait_for_modal_close (waitFuel b.max_idle) env b.max_idle t2 t2 with
          | some (false, t3) => some ("timeout", t3)
          | some (true, t3) => some ("submitted", t3)
          | none => none
      else if v.reviewVisible then
        complete_easy_apply fuel b env now now
      else if v.nextVisible then
        let t1 := now + 5
        if (env.view t1).errorVisible ∧ b.pause_on_unfilled then
          complete_easy_apply fuel b env now (t1 + env.opTime t1)
        else
          complete_easy_apply fuel b env now t1
      else if b.pause_on_unfilled then
        let t1 := now + env.opTime now
        complete_easy_apply fuel b env t1 t1
      else if now - lastAction > b.max_idle then some ("timeout", now)
      else complete_easy_apply fuel b env lastAction (now + 5)

/-! ### Follow-company normalization (src/app.py:786)

Checkboxes of the modal are numbered; `CbState` maps each number to its
checked state. The modal structure records which lookups resolve to which
checkbox; `aria-checked` of a role checkbox mirrors its state. Every DOM
mutation the pass could issue is logged as a `FollowAction`. -/

abbrev CbState := Nat → Bool

def updateCb (st : CbState) (i : Nat) (v : Bool) : CbState :=
  fun j => if j = i then v else st j

structure LabelInfo where
  text : String
  forTarget : Option Nat
  nested : Option Nat
  roleC : Option Nat
deriving Repr, DecidableEq

structure Modal where
  directCb : Option Nat
  directLabel : Bool
  roleCb : Option Nat
  ariaCbs : List (String × Nat)
  labels : List LabelInfo

inductive FollowAction where
  | setCheckedFalse (i : Nat)
  | labelClick (i : Nat)
  | forceClick (i : Nat)
  | uncheck (i : Nat)
deriving Repr, DecidableEq

/-- The checkbox a logged action acts on. -/
def FollowAction.target : FollowAction → Nat
  | .setCheckedFalse i => i
  | .labelClick i => i
  | .forceClick i => i
  | .uncheck i => i

/-- Keyword vocabulary of the follow-company pass (src/app.py:832-844),
searched case-insensitively (modelled by lowering the text first). -/
def followKwRx : Rx :=
  ralts [rlit "follow", rlit "company", rlit "employer",
    rlit "follow the company", rlit "follow company", rlit "stay up to date",
    rlit "işvereni takip", rlit "şirketi takip", rlit "sirketi takip",
    rlit "takip et"]

def kwSearch (s : String) : Bool :=
  research followKwRx (s.toList.map Char.toLower)

/-- First `input[type=checkbox]` whose non-empty aria-label matches the
keyword vocabulary (src/app.py:864-879). -/
def findAriaKw : List (String × Nat) → Option Nat
  | [] => none
  | (aria, i) :: rest =>
      if aria ≠ "" ∧ kwSearch aria then some i else findAriaKw rest

/-- The label-scanning loop (src/app.py:882-924): first keyword-matching
label handles the control it references and returns. -/
def followLabels :
    List LabelInfo → CbState → List FollowAction → CbState × List FollowAction
  | [], st, acc => (st, acc)
  | lbl :: rest, st, acc =>
      if lbl.text ≠ "" ∧ kwSearch lbl.text then
        match lbl.forTarget with
        | some i =>
            if st i then (updateCb st i false, acc ++ [.uncheck i])
            else (st, acc)
        | none =>
            match lbl.nested with
            | some i =>
                if st i then (updateCb st i (!(st i)), acc ++ [.labelClick i])
                else (st, acc)
            | none =>
                match lbl.roleC with
                | some i =>
                    if st i then (updateCb st i (!(st i)), acc ++ [.forceClick i])
                    else (st, acc)
                | none => followLabels rest st acc
      else followLabels rest st acc

/-- The keyword fallback half of `ensure_follow_company_unchecked`
(src/app.py:832-924): role checkbox (no return when unchecked), then
aria-labelled inputs, then labels. -/
def followFallback (m : Modal) (st : CbState) (acc : List FollowAction) :
    CbState × List FollowAction :=
  let roleStep : Option (CbState × List FollowAction) :=
    match m.roleCb with
    | some i =>
        if st i then some (updateCb st i (!(st i)), acc ++ [.forceClick i])
        else none
    | none => none
  match roleStep with
  | some r => r
  | none =>
      match findAriaKw m.ariaCbs with
      | some i =>
          if st i then (updateCb st i false, acc ++ [.uncheck i])
          else (st, acc)
      | none => followLabels m.labels st acc

/-- `ensure_follow_company_unchecked` (src/app.py:786): the direct
`#follow-company-checkbox` path with its three escalating unchecking
methods, falling through to the keyword fallback when no direct checkbox
exists or it could not be confirmed unchecked. -/
def ensure_follow_company_unchecked (m : Modal) (st : CbState) :
    CbState × List FollowAction :=
  match m.directCb with
  | some i =>
      let s1 := if st i then (updateCb st i false, [FollowAction.setCheckedFalse i])
                else (st, ([] : List FollowAction))
      let s2 :=
        if s1.1 i ∧ m.directLabel then
          (updateCb s1.1 i (!(s1.1 i)), s1.2 ++ [FollowAction.labelClick i])
        else s1
      let s3 :=
        if s2.1 i then
          (updateCb s2.1 i (!(s2.1 i)), s2.2 ++ [FollowAction.forceClick i])
        else s2
      if s3.1 i = false then s3
      else followFallback m s3.1 s3.2
  | none => followFallback m st []

/-! ### Orchestrator loop (src/app.py:1017)

One pass over the rendered job cards, with per-card observations bundled in
`Card` (the wizard outcome abstracts `complete_easy_apply`'s returned
status). `Event` records the externally visible actions: card clicks,
apply-button clicks, and each full rewrite of the state file with the
ledger it wrote. -/

structure JobRecord where
  status : String
  title : Option String
  company : Option String
  url : String
  updated_at : String
deriving Repr, DecidableEq

abbrev Ledger := List (String × JobRecord)

def ledgerKeys (l : Ledger) : List String := l.map Prod.fst

structure Card where
  extractedId : Option String
  recentlyApplied : Bool
  clickFails : Bool
  title : Option String
  company : Option String
  easyApply : Bool
  applyClickFails : Bool
  wizardResult : String
deriving Repr, DecidableEq

inductive Event where
  | cardClick (id : String)
  | applyClick (id : String)
  | save (ledger : Ledger)
deriving Repr, DecidableEq

structure OrchState where
  ledger : Ledger
  seen : List String
deriving Repr, DecidableEq

/-- The record the loop writes for a card, by branch (src/app.py:1056,
1080, 1099). -/
def recordFor (c : Card) (url nowIso : String) : JobRecord :=
  if c.recentlyApplied then
    ⟨"skipped_recently_applied", none, none, url, nowIso⟩
  else if ¬ c.easyApply then
    ⟨"skipped_no_easy_apply", c.title, c.company, url, nowIso⟩
  else
    ⟨c.wizardResult, c.title, c.company, url, nowIso⟩

/-- The body of the per-card loop (src/app.py:1050-1107). `i` is the card
index and `tstamp` the integer timestamp, used only for the synthesized
fallback id; `url`/`nowIso` stand for `page.url` and `now_iso()`. -/
def processCard (i tstamp : Nat) (url nowIso : String) (st : OrchState)
    (c : Card) : OrchState × List Event :=
  let job_id := c.extractedId.getD
    ("idx-" ++ toString i ++ "-" ++ toString tstamp)
  if job_id ∈ st.seen then (st, [])
  else if c.recentlyApplied then
    let led := setAssoc st.ledger job_id
      ⟨"skipped_recently_applied", none, none, url, nowIso⟩
    (⟨led, job_id :: st.seen⟩, [.save led])
  else if c.clickFails then (st, [])
  else if ¬ c.easyApply then
    let led := setAssoc st.ledger job_id
      ⟨"skipped_no_easy_apply", c.title, c.company, url, nowIso⟩
    (⟨led, job_id :: st.seen⟩, [.cardClick job_id, .save led])
  else if c.applyClickFails then (st, [.cardClick job_id])
  else
    let led := setAssoc st.ledger job_id
      ⟨c.wizardResult, c.title, c.company, url, nowIso⟩
    (⟨led, job_id :: st.seen⟩,
      [.cardClick job_id, .applyClick job_id, .save led])

/-- One pass of the enumeration loop over the rendered cards. -/
def processPass (url nowIso : String) (tstamp : Nat) :
    OrchState → Nat → List Card → OrchState × List Event
  | st, _, [] => (st, [])
  | st, i, c :: rest =>
      let r1 := processCard i tstamp url nowIso st c
      let r2 := processPass url nowIso tstamp r1.1 (i + 1) rest
      (r2.1, r1.2 ++ r2.2)

/-- Does the loop record an outcome for this card (as opposed to the two
exception-`continue` paths that leave no ledger entry)? -/
def recordsOutcome (c : Card) : Bool :=
  c.recentlyApplied || (!c.clickFails && (!c.easyApply || !c.applyClickFails))

/-- A modal with a follow-company control reachable by every strategy. -/
def modalW : Modal :=
  { directCb := some 0
    directLabel := true
    roleCb := none
    ariaCbs := [("Follow company updates", 1)]
    labels := [⟨"Follow the company", none, some 2, none⟩] }

/-- A mixed modal state: checkbox 0 (the direct follow checkbox of
`modalW`) is checked, every other control is unchecked. -/
def stMixed : CbState := fun i => decide (i = 0)

/-- A dialog that stays visible and never shows any recognized control. -/
def envW : WizardEnv :=
  { view := fun _ => ⟨true, false, false, false, false, false⟩
    opTime := fun _ => 0 }

/-! ## Theorems -/

/-! ### Association list and key-order lemmas -/

theorem lookup_setAssoc_self {α : Type} (l : List (String × α)) (k : String)
    (v : α) : (setAssoc l k v).lookup k = some v := by
  induction l with
  | nil => simp [setAssoc, List.lookup]
  | cons p rest ih =>
      obtain ⟨k2, v2⟩ := p
      by_cases h : k2 = k
      · subst h; simp [setAssoc, List.lookup]
      · simp only [setAssoc, if_neg h, List.lookup]
        have : (k == k2) = false := by
          simpa using fun hh => h hh.symm
        simp [this, ih]

theorem lookup_setAssoc_ne {α : Type} (l : List (String × α)) (k k2 : String)
    (v : α) (h : k2 ≠ k) :
    (setAssoc l k v).lookup k2 = l.lookup k2 := by
  induction l with
  | nil =>
      have hne : (k2 == k) = false := by simpa using h
      simp [setAssoc, List.lookup, hne]
  | cons p rest ih =>
      obtain ⟨k3, v3⟩ := p
      by_cases h3 : k3 = k
      · subst h3
        have hne : (k2 == k3) = false := by simpa using h
        simp [setAssoc, List.lookup, hne]
      · simp only [setAssoc, if_neg h3, List.lookup]
        by_cases he : k2 = k3
        · subst he; simp
        · have hne : (k2 == k3) = false := by simpa using he
          simp [hne, ih]

theorem lookup_eq_none_of_not_mem_keys {α : Type} (l : List (String × α))
    (k : String) (h : k ∉ l.map Prod.fst) : l.lookup k = none := by
  induction l with
  | nil => simp [List.lookup]
  | cons p rest ih =>
      obtain ⟨k2, v2⟩ := p
      simp only [List.map, List.mem_cons] at h
      push_neg at h
      have hne : (k == k2) = false := by simpa using h.1
      simp [List.lookup, hne, ih h.2]

theorem charListLe_cons_iff {a b : Char} {as bs : List Char} :
    charListLe (a :: as) (b :: bs) = true ↔
      a.toNat < b.toNat ∨ (a.toNat = b.toNat ∧ charListLe as bs = true) := by
  simp only [charListLe]
  split_ifs with h1 h2
  · simp [h1]
  · constructor
    · intro h; exact absurd h (by simp)
    · rintro (h | ⟨h, _⟩) <;> omega
  · have hab : a.toNat = b.toNat := by omega
    simp [hab]

theorem charListLe_total : ∀ as bs : List Char,
    charListLe as bs = true ∨ charListLe bs as = true
  | [], _ => Or.inl rfl
  | _ :: _, [] => Or.inr rfl
  | a :: as, b :: bs => by
      rcases Nat.lt_trichotomy a.toNat b.toNat with h | h | h
      · left; rw [charListLe_cons_iff]; exact Or.inl h
      · rcases charListLe_total as bs with hh | hh
        · left; rw [charListLe_cons_iff]; exact Or.inr ⟨h, hh⟩
        · right; rw [charListLe_cons_iff]; exact Or.inr ⟨h.symm, hh⟩
      · right; rw [charListLe_cons_iff]; exact Or.inl h

theorem charListLe_trans : ∀ as bs cs : List Char,
    charListLe as bs = true → charListLe bs cs = true →
    charListLe as cs = true
  | [], _, _, _, _ => rfl
  | _ :: _, [], _, h, _ => by simp [charListLe] at h
  | _ :: _, _ :: _, [], _, h2 => by simp [charListLe] at h2
  | a :: as, b :: bs, c :: cs, h1, h2 => by
      rw [charListLe_cons_iff] at h1 h2 ⊢
      rcases h1 with h1 | ⟨h1e, h1r⟩ <;> rcases h2 with h2 | ⟨h2e, h2r⟩
      · exact Or.inl (by omega)
      · exact Or.inl (by omega)
      · exact Or.inl (by omega)
      · exact Or.inr ⟨by omega, charListLe_trans as bs cs h1r h2r⟩

theorem strLe_total (a b : String) : strLe a b = true ∨ strLe b a = true :=
  charListLe_total _ _

theorem strLe_trans {a b c : String} (h1 : strLe a b = true)
    (h2 : strLe b c = true) : strLe a c = true :=
  charListLe_trans _ _ _ h1 h2

theorem mem_orderedInsertKey :
    ∀ {l : List (String × Json)} {p q : String × Json},
    q ∈ orderedInsertKey p l → q = p ∨ q ∈ l
  | [], p, q, h => by
      simp only [orderedInsertKey, List.mem_singleton] at h
      exact Or.inl h
  | r :: rest, p, q, h => by
      by_cases hs : strLe p.1 r.1 = true
      · rw [orderedInsertKey, if_pos hs] at h
        rcases List.mem_cons.mp h with h | h
        · exact Or.inl h
        · exact Or.inr h
      · rw [orderedInsertKey, if_neg hs] at h
        rcases List.mem_cons.mp h with h | h
        · exact Or.inr (List.mem_cons.mpr (Or.inl h))
        · rcases mem_orderedInsertKey h with h2 | h2
          · exact Or.inl h2
          · exact Or.inr (List.mem_cons.mpr (Or.inr h2))

theorem pairwise_orderedInsertKey :
    ∀ {l : List (String × Json)} {p : String × Json},
    l.Pairwise (fun x y => strLe x.1 y.1 = true) →
    (orderedInsertKey p l).Pairwise (fun x y => strLe x.1 y.1 = true)
  | [], p, _ => by simp [orderedInsertKey]
  | q :: rest, p, h => by
      rcases List.pairwise_cons.mp h with ⟨hq, hrest⟩
      by_cases hs : strLe p.1 q.1 = true
      · rw [orderedInsertKey, if_pos hs]
        refine List.pairwise_cons.mpr ⟨?_, h⟩
        intro r hr
        rcases List.mem_cons.mp hr with rfl | hr
        · exact hs
        · exact strLe_trans hs (hq r hr)
      · have hqp : strLe q.1 p.1 = true := by
          rcases strLe_total p.1 q.1 with hh | hh
          · exact absurd hh hs
          · exact hh
        rw [orderedInsertKey, if_neg hs]
        refine List.pairwise_cons.mpr ⟨?_, pairwise_orderedInsertKey hrest⟩
        intro r hr
        rcases mem_orderedInsertKey hr with rfl | hr
        · exact hqp
        · exact hq r hr

theorem pairwise_sortByKey (l : List (String × Json)) :
    (sortByKey l).Pairwise (fun x y => strLe x.1 y.1 = true) := by
  induction l with
  | nil => simp [sortByKey]
  | cons p rest ih => exact pairwise_orderedInsertKey ih

theorem objKeys_sortKeysJson_pairwise (j : Json) :
    (objKeys (sortKeysJson j)).Pairwise (fun a b => strLe a b = true) := by
  cases j with
  | obj fs =>
      simp only [sortKeysJson, objKeys]
      exact List.Pairwise.map _ (fun x y h => h) (pairwise_sortByKey _)
  | null => simp [sortKeysJson, objKeys]
  | bool b => simp [sortKeysJson, objKeys]
  | num n => simp [sortKeysJson, objKeys]
  | str s => simp [sortKeysJson, objKeys]
  | arr xs => simp [sortKeysJson, objKeys]

/-! ### C6 — ledger load totality -/

/-- C6 counterexample: the file content `[]` is valid JSON that is not the
ledger format, yet `load_state` returns it as-is instead of the empty
ledger, refuting "returns the empty ledger whenever the file content cannot
be parsed as the ledger format". -/
theorem C6_counterexample :
    load_state (some "[]") = Json.arr [] ∧
    isLedgerShaped (Json.arr []) = false ∧
    Json.arr [] ≠ emptyLedgerJson :=
  ⟨rfl, rfl, fun h => Json.noConfusion h⟩

/-- C6 (amended): `load_state` never raises; a missing file and content that
fails to parse as JSON both yield the empty ledger `{"jobs": {}}`, while
content that parses as JSON is returned as-is, even when it is not
ledger-shaped. -/
theorem C6_load_state_amended :
    load_state none = emptyLedgerJson ∧
    (∀ c, json_load c = none → load_state (some c) = emptyLedgerJson) ∧
    (∀ c j, json_load c = some j → load_state (some c) = j) := by
  refine ⟨rfl, ?_, ?_⟩
  · intro c h
    simp [load_state, h]
  · intro c j h
    simp [load_state, h]

/-- C6 witness: the amended theorem applied at unparsable and at
non-ledger-shaped contents. -/
theorem C6_load_state_amended_witness :
    load_state (some "xyz") = emptyLedgerJson ∧
    load_state (some "[]") = Json.arr [] :=
  ⟨C6_load_state_amended.2.1 "xyz" rfl,
   C6_load_state_amended.2.2 "[]" (Json.arr []) rfl⟩

/-! ### C9 — ledger write postcondition -/

/-- C9 counterexample: on a bare filename the claim promises success, but
`os.makedirs(os.path.dirname(path))` receives the empty string and raises
`FileNotFoundError`. -/
theorem C9_counterexample :
    save_state "applied.json" emptyLedgerJson ⟨[], []⟩ =
      .error "FileNotFoundError" := rfl

/-- C9 (amended): for every path with a non-empty directory component,
`save_state` returns without raising, creates the parent directory, and
stores the ledger rendered by the two-space-indent, key-sorted dump — whose
top-level keys are indeed sorted. -/
theorem C9_save_state_amended (path : String) (st : Json) (fs : FS)
    (h : dirname path ≠ "") :
    isOkE (save_state path st fs) = true ∧
    (savedFiles (save_state path st fs)).lookup path = some (json_dump st) ∧
    dirname path ∈ savedDirs (save_state path st fs) ∧
    (objKeys (sortKeysJson st)).Pairwise (fun a b => strLe a b = true) := by
  have hmk : makedirs fs (dirname path) =
      .ok { fs with dirs := if dirname path ∈ fs.dirs then fs.dirs
                            else dirname path :: fs.dirs } := by
    simp [makedirs, h]
  refine ⟨?_, ?_, ?_, objKeys_sortKeysJson_pairwise st⟩
  · simp [save_state, hmk, isOkE]
  · simp [save_state, hmk, savedFiles, lookup_setAssoc_self]
  · simp only [save_state, hmk, savedDirs]
    by_cases hd : dirname path ∈ fs.dirs
    · simp [hd]
    · simp [hd]

/-- C9 witness: the amended theorem at the program's default state path on
an empty file system. -/
theorem C9_save_state_amended_witness :
    isOkE (save_state "state/applied.json" emptyLedgerJson ⟨[], []⟩) = true ∧
    (savedFiles (save_state "state/applied.json" emptyLedgerJson ⟨[], []⟩)).lookup
      "state/applied.json" = some (json_dump emptyLedgerJson) ∧
    dirname "state/applied.json" ∈
      savedDirs (save_state "state/applied.json" emptyLedgerJson ⟨[], []⟩) ∧
    (objKeys (sortKeysJson emptyLedgerJson)).Pairwise
      (fun a b => strLe a b = true) :=
  C9_save_state_amended "state/applied.json" emptyLedgerJson ⟨[], []⟩
    (by decide)

/-! ### C7 — recently-applied matcher -/

/-- C7: the normalized-text matcher accepts "Applied 2 hours ago" and the
compact hour form, and rejects "5 applicants" and the day-unit phrase
"Applied 3 days ago". -/
theorem C7_recently_applied_matcher :
    is_recently_applied_card (.ok (some "Applied 2 hours ago")) = true ∧
    is_recently_applied_card (.ok (some "5 applicants")) = false ∧
    is_recently_applied_card (.ok (some "Applied 3 days ago")) = false ∧
    is_recently_applied_card (.ok (some "Applied 3h ago")) = true :=
  ⟨rfl, rfl, rfl, rfl⟩

/-! ### C8 — locator fallback contract -/

/-- C8 counterexample: the first location descriptor matches only an
invisible element and is accepted anyway — the cited resolvers test
`count() > 0` but never visibility, so the third descriptor's visible
element is not reached. -/
theorem C8_counterexample :
    locate_location_input C8page = some ⟨false, "first-invisible"⟩ ∧
    (C8page locSel1).head?.map Element.visible = some false ∧
    C8page locSel3 = [⟨true, "third-visible"⟩] :=
  ⟨rfl, rfl, rfl⟩

/-- C8 (amended): the cited resolvers accept the earliest descriptor that
yields at least one element, with no visibility check; in particular when
the first two descriptors yield nothing and the third yields elements, the
location resolver returns the third's first element and the job-card
resolver returns the third's whole match list. -/
theorem C8_first_count_wins (L : String → List Element) (e f : Element)
    (es fs : List Element)
    (h1 : L locSel1 = []) (h2 : L locSel2 = []) (h3 : L locSel3 = e :: es)
    (j1 : L cardSel1 = []) (j2 : L cardSel2 = []) (j3 : L cardSel3 = f :: fs) :
    locate_location_input L = some e ∧ get_job_cards L = f :: fs := by
  constructor
  · simp [locate_location_input, locationInputSelectors, findFirstMatch,
      h1, h2, h3]
  · simp [get_job_cards, jobCardSelectors, findFirstLoc, j1, j2, j3]

/-- C8 witness: the amended theorem on a page where only each resolver's
third descriptor matches. -/
theorem C8_first_count_wins_witness :
    locate_location_input C8pageW = some ⟨true, "loc-input"⟩ ∧
    get_job_cards C8pageW = [⟨true, "job-card"⟩] :=
  C8_first_count_wins C8pageW ⟨true, "loc-input"⟩ ⟨true, "job-card"⟩ [] []
    rfl rfl rfl rfl rfl rfl

/-! ### C4 — easy-apply filter idempotence -/

/-- C4 counterexample: on the panel path with no checkbox and only the text
label, each invocation clicks the label unconditionally, so the second
invocation toggles the filter back off — the post-condition "toggle
pressed" fails. -/
theorem C4_counterexample :
    apply_easy_apply_filter true ⟨false, false, true, false, true⟩ =
      .ok (⟨true, false, true, false, true⟩, true) ∧
    applyEasyApplyTwice true ⟨false, false, true, false, true⟩ =
      .ok (⟨false, false, true, false, true⟩, true) :=
  ⟨rfl, rfl⟩

/-- C4 (amended): on the top-bar toggle path and on the panel-checkbox path
the double invocation of `apply_filters` is idempotent — the filter ends
pressed and the second invocation changes nothing; only the label-click
fallback (no checkbox resolvable in the panel) can toggle back off. -/
theorem C4_idempotent (p : EAPage) (useAll : Bool)
    (h : p.topButton = true ∨
      (useAll = true ∧ p.panelOk = true ∧ p.panelCheckbox = true)) :
    applyEasyApplyTwice useAll p = apply_easy_apply_filter useAll p ∧
    eaFilterOn (apply_easy_apply_filter useAll p) = some true := by
  obtain ⟨fo, tb, po, pc, pl⟩ := p
  revert h
  revert useAll fo tb po pc pl
  decide

/-- C4 witness: the amended theorem on an unpressed top-bar toggle. -/
theorem C4_idempotent_witness :
    applyEasyApplyTwice false ⟨false, true, false, false, false⟩ =
      apply_easy_apply_filter false ⟨false, true, false, false, false⟩ ∧
    eaFilterOn (apply_easy_apply_filter false ⟨false, true, false, false, false⟩) =
      some true :=
  C4_idempotent ⟨false, true, false, false, false⟩ false (Or.inl rfl)

/-! ### C5 — filter failure isolation -/

theorem locationStep_fst (env : FilterEnv) (filters : Filters) :
    (locationStep env filters).1 =
      if filters.location.isSome then ["location"] else [] := by
  rcases h : filters.location with _ | v <;>
    rcases hr : env.locationResult with e | b <;> simp [locationStep, h, hr]

theorem distanceStep_fst (env : FilterEnv) (filters : Filters) :
    (distanceStep env filters).1 =
      if filters.distancePresent ∧ ¬ filters.distanceTruthy then ["distance"]
      else [] := by
  cases hp : filters.distancePresent <;> cases ht2 : filters.distanceTruthy <;>
    rcases hr : env.distanceResult with e | b <;>
      simp [distanceStep, hp, ht2, hr]

theorem dateStep_fst (env : FilterEnv) (filters : Filters) :
    (dateStep env filters).1 =
      if filters.time_posted.isSome then ["time_posted"] else [] := by
  rcases h : filters.time_posted with _ | v <;>
    rcases hr : env.dateResult with e | b <;> simp [dateStep, h, hr]

theorem eaStep_fst (env : FilterEnv) (filters : Filters) :
    (eaStep env filters).1 =
      if filters.easy_apply then
        match apply_easy_apply_filter filters.use_all_filters env.eaPage with
        | .error _ => ["easy_apply"]
        | .ok _ => ["easy_apply", "easy_apply"]
      else [] := by
  cases hfe : filters.easy_apply
  · simp [eaStep, hfe]
  · rcases h1 : apply_easy_apply_filter filters.use_all_filters env.eaPage with
      e | ⟨p1, b1⟩
    · simp [eaStep, hfe, h1]
    · rcases h2 : apply_easy_apply_filter filters.use_all_filters p1 with
        e2 | ⟨p2, b2⟩ <;> simp [eaStep, hfe, h1, h2]

/-- C5 (amended): `apply_filters` never propagates; each configured block
runs exactly once regardless of earlier failures — location, distance-clear
and date-posted invoke their helper exactly once, while the easy-apply
block invokes its helper twice (a second time only when the first call did
not raise); a raising helper adds exactly the entry `"<name> (<reason>)"`;
the operator prompt blocks iff at least one filter failed. -/
theorem C5_filter_isolation (env : FilterEnv) (filters : Filters) :
    (apply_filters env filters).attempts.count "location" =
      (if filters.location.isSome then 1 else 0) ∧
    (apply_filters env filters).attempts.count "distance" =
      (if filters.distancePresent ∧ ¬ filters.distanceTruthy then 1 else 0) ∧
    (apply_filters env filters).attempts.count "time_posted" =
      (if filters.time_posted.isSome then 1 else 0) ∧
    (apply_filters env filters).attempts.count "easy_apply" =
      (if filters.easy_apply then
        match apply_easy_apply_filter filters.use_all_filters env.eaPage with
        | .error _ => 1
        | .ok _ => 2
       else 0) ∧
    ((apply_filters env filters).blocked = true ↔
      (apply_filters env filters).failures ≠ []) ∧
    (∀ e, filters.location.isSome → env.locationResult = .error e →
      "location (" ++ e ++ ")" ∈ (apply_filters env filters).failures) ∧
    (∀ e, filters.distancePresent ∧ ¬ filters.distanceTruthy →
      env.distanceResult = .error e →
      "distance (" ++ e ++ ")" ∈ (apply_filters env filters).failures) ∧
    (∀ e, filters.time_posted.isSome → env.dateResult = .error e →
      "time_posted (" ++ e ++ ")" ∈ (apply_filters env filters).failures) ∧
    (∀ e, filters.easy_apply = true →
      applyEasyApplyTwice filters.use_all_filters env.eaPage = .error e →
      "easy_apply (" ++ e ++ ")" ∈ (apply_filters env filters).failures) := by
  have hl := locationStep_fst env filters
  have hd := distanceStep_fst env filters
  have ht := dateStep_fst env filters
  have he := eaStep_fst env filters
  refine ⟨?_, ?_, ?_, ?_, ?_, ?_, ?_, ?_, ?_⟩
  · rcases hLoc : filters.location with _ | lv <;>
      cases hp : filters.distancePresent <;>
      cases ht2 : filters.distanceTruthy <;>
      rcases hTp : filters.time_posted with _ | tv <;>
      cases hfe : filters.easy_apply <;>
      rcases h1 : apply_easy_apply_filter filters.use_all_filters env.eaPage
        with e | r <;>
      simp [apply_filters, hl, hd, ht, he, hLoc, hp, ht2, hTp, hfe, h1,
        List.count_append, List.count_cons, List.count_nil]
  · rcases hLoc : filters.location with _ | lv <;>
      cases hp : filters.distancePresent <;>
      cases ht2 : filters.distanceTruthy <;>
      rcases hTp : filters.time_posted with _ | tv <;>
      cases hfe : filters.easy_apply <;>
      rcases h1 : apply_easy_apply_filter filters.use_all_filters env.eaPage
        with e | r <;>
      simp [apply_filters, hl, hd, ht, he, hLoc, hp, ht2, hTp, hfe, h1,
        List.count_append, List.count_cons, List.count_nil]
  · rcases hLoc : filters.location with _ | lv <;>
      cases hp : filters.distancePresent <;>
      cases ht2 : filters.distanceTruthy <;>
      rcases hTp : filters.time_posted with _ | tv <;>
      cases hfe : filters.easy_apply <;>
      rcases h1 : apply_easy_apply_filter filters.use_all_filters env.eaPage
        with e | r <;>
      simp [apply_filters, hl, hd, ht, he, hLoc, hp, ht2, hTp, hfe, h1,
        List.count_append, List.count_cons, List.count_nil]
  · rcases hLoc : filters.location with _ | lv <;>
      cases hp : filters.distancePresent <;>
      cases ht2 : filters.distanceTruthy <;>
      rcases hTp : filters.time_posted with _ | tv <;>
      cases hfe : filters.easy_apply <;>
      rcases h1 : apply_easy_apply_filter filters.use_all_filters env.eaPage
        with e | r <;>
      simp [apply_filters, hl, hd, ht, he, hLoc, hp, ht2, hTp, hfe, h1,
        List.count_append, List.count_cons, List.count_nil]
  · simp only [apply_filters, decide_eq_true_eq, List.isEmpty_iff]
  · intro e hs hr
    rcases h : filters.location with _ | v
    · simp [h] at hs
    · simp [apply_filters, locationStep, h, hr]
  · intro e hs hr
    simp [apply_filters, distanceStep, hs, hr]
  · intro e hs hr
    rcases h : filters.time_posted with _ | v
    · simp [h] at hs
    · simp [apply_filters, dateStep, h, hr]
  · intro e hfe hr
    rcases h1 : apply_easy_apply_filter filters.use_all_filters env.eaPage with
      e1 | ⟨p1, b1⟩
    · have : e1 = e := by
        simpa [applyEasyApplyTwice, h1] using hr
      subst this
      simp [apply_filters, eaStep, hfe, h1]
    · rcases h2 : apply_easy_apply_filter filters.use_all_filters p1 with
        e2 | ⟨p2, b2⟩
      · have : e2 = e := by
          simpa [applyEasyApplyTwice, h1, h2] using hr
        subst this
        simp [apply_filters, eaStep, hfe, h1, h2]
      · exfalso
        simp [applyEasyApplyTwice, h1, h2] at hr

/-- C5 witness: a run where the location helper raises and the rest
succeed — the later filters are still attempted, easy-apply twice, and the
prompt blocks. -/
theorem C5_filter_isolation_witness :
    (apply_filters
      { locationResult := .error "boom", distanceResult := .ok true,
        dateResult := .ok true, eaPage := ⟨false, true, false, false, false⟩ }
      filtersAll).attempts.count "easy_apply" = 2 ∧
    "location (boom)" ∈ (apply_filters
      { locationResult := .error "boom", distanceResult := .ok true,
        dateResult := .ok true, eaPage := ⟨false, true, false, false, false⟩ }
      filtersAll).failures ∧
    (apply_filters
      { locationResult := .error "boom", distanceResult := .ok true,
        dateResult := .ok true, eaPage := ⟨false, true, false, false, false⟩ }
      filtersAll).blocked = true := by
  have h := C5_filter_isolation
    { locationResult := .error "boom", distanceResult := .ok true,
      dateResult := .ok true, eaPage := ⟨false, true, false, false, false⟩ }
    filtersAll
  refine ⟨?_, ?_, ?_⟩
  · exact h.2.2.2.1.trans (by decide)
  · exact h.2.2.2.2.2.1 "boom" (by decide) rfl
  · exact h.2.2.2.2.1.mpr (by decide)

/-- C5 counterexample: with every helper succeeding, the easy-apply filter
is attempted twice in one `apply_filters` run, refuting "each configured
filter is attempted exactly once". -/
theorem C5_counterexample :
    (apply_filters envAllOk filtersAll).attempts =
      ["location", "distance", "time_posted", "easy_apply", "easy_apply"] ∧
    (apply_filters envAllOk filtersAll).attempts.count "easy_apply" = 2 :=
  ⟨rfl, rfl⟩

/-! ### C1 — ledger dedup -/

/-- C1: a card whose extracted id is already in the seen set — which `main`
initializes to the ledger's key set (src/app.py:1039) and extends with each
recorded id — is skipped silently: the loop body issues no click, opens
nothing, writes nothing, and leaves the state untouched. -/
theorem C1_ledger_dedup (i tstamp : Nat) (url nowIso : String)
    (st : OrchState) (c : Card) (j : String)
    (hid : c.extractedId = some j) (hseen : j ∈ st.seen) :
    processCard i tstamp url nowIso st c = (st, []) := by
  simp [processCard, hid, hseen]

/-- C1 witness: the spec's concrete scenario — ledger `{"123": ...}`, seen
initialized from its keys, and a rendered card with id `"123"`. -/
theorem C1_ledger_dedup_witness :
    processCard 0 7 "https://example.test/jobs" "2024-01-01T00:00:00"
      ⟨[("123", ⟨"submitted", none, none, "u", "t"⟩)], ["123"]⟩
      ⟨some "123", false, false, none, none, true, false, "submitted"⟩ =
      (⟨[("123", ⟨"submitted", none, none, "u", "t"⟩)], ["123"]⟩, []) :=
  C1_ledger_dedup 0 7 "https://example.test/jobs" "2024-01-01T00:00:00"
    ⟨[("123", ⟨"submitted", none, none, "u", "t"⟩)], ["123"]⟩
    ⟨some "123", false, false, none, none, true, false, "submitted"⟩
    "123" rfl (by decide)

/-! ### C2 — crash-safe persistence -/

/-- C2: whenever the loop records an outcome for card A, it mutates the
in-memory ledger and rewrites the state file before moving on: A's event
trace ends with a save of exactly the updated ledger, that ledger holds no
record for a fresh id b, and the pass trace over [A, B] is A's whole trace
followed by B's. -/
theorem C2_crash_safe_persistence (i tstamp : Nat) (url nowIso : String)
    (st0 : OrchState) (A B : Card) (a b : String)
    (hA : A.extractedId = some a)
    (haseen : a ∉ st0.seen) (hrec : recordsOutcome A = true)
    (hba : b ≠ a) (hbled : b ∉ ledgerKeys st0.ledger) :
    (processCard i tstamp url nowIso st0 A).1 =
      ⟨setAssoc st0.ledger a (recordFor A url nowIso), a :: st0.seen⟩ ∧
    (processCard i tstamp url nowIso st0 A).2.getLast? =
      some (.save (setAssoc st0.ledger a (recordFor A url nowIso))) ∧
    (setAssoc st0.ledger a (recordFor A url nowIso)).lookup b = none ∧
    (processPass url nowIso tstamp st0 i [A, B]).2 =
      (processCard i tstamp url nowIso st0 A).2 ++
        (processCard (i + 1) tstamp url nowIso
          (processCard i tstamp url nowIso st0 A).1 B).2 := by
  refine ⟨?_, ?_, ?_, ?_⟩
  · cases hra : A.recentlyApplied
    · cases hcf : A.clickFails
      · cases hea : A.easyApply
        · simp [processCard, recordFor, hA, haseen, hra, hcf, hea]
        · cases hacf : A.applyClickFails
          · simp [processCard, recordFor, hA, haseen, hra, hcf, hea, hacf]
          · simp [recordsOutcome, hra, hcf, hea, hacf] at hrec
      · simp [recordsOutcome, hra, hcf] at hrec
    · simp [processCard, recordFor, hA, haseen, hra]
  · cases hra : A.recentlyApplied
    · cases hcf : A.clickFails
      · cases hea : A.easyApply
        · simp [processCard, recordFor, hA, haseen, hra, hcf, hea]
        · cases hacf : A.applyClickFails
          · simp [processCard, recordFor, hA, haseen, hra, hcf, hea, hacf]
          · simp [recordsOutcome, hra, hcf, hea, hacf] at hrec
      · simp [recordsOutcome, hra, hcf] at hrec
    · simp [processCard, recordFor, hA, haseen, hra]
  · rw [lookup_setAssoc_ne _ _ _ _ hba]
    exact lookup_eq_none_of_not_mem_keys _ _ hbled
  · simp [processPass]

/-- C2 witness: a recently-applied card A and a fresh card B on an empty
initial state. -/
theorem C2_crash_safe_persistence_witness :
    (processCard 0 7 "u" "t" ⟨[], []⟩
        ⟨some "a1", true, false, none, none, false, false, "submitted"⟩).1 =
      ⟨setAssoc [] "a1"
        (recordFor ⟨some "a1", true, false, none, none, false, false,
          "submitted"⟩ "u" "t"), ["a1"]⟩ ∧
    (processCard 0 7 "u" "t" ⟨[], []⟩
        ⟨some "a1", true, false, none, none, false, false, "submitted"⟩).2.getLast? =
      some (.save (setAssoc [] "a1"
        (recordFor ⟨some "a1", true, false, none, none, false, false,
          "submitted"⟩ "u" "t"))) ∧
    (setAssoc [] "a1"
      (recordFor ⟨some "a1", true, false, none, none, false, false,
        "submitted"⟩ "u" "t")).lookup "b2" = none ∧
    (processPass "u" "t" 7 ⟨[], []⟩ 0
      [⟨some "a1", true, false, none, none, false, false, "submitted"⟩,
       ⟨some "b2", false, false, none, none, true, false, "closed"⟩]).2 =
      (processCard 0 7 "u" "t" ⟨[], []⟩
        ⟨some "a1", true, false, none, none, false, false, "submitted"⟩).2 ++
      (processCard 1 7 "u" "t"
        (processCard 0 7 "u" "t" ⟨[], []⟩
          ⟨some "a1", true, false, none, none, false, false, "submitted"⟩).1
        ⟨some "b2", false, false, none, none, true, false, "closed"⟩).2 := by
  have h := C2_crash_safe_persistence 0 7 "u" "t" ⟨[], []⟩
    ⟨some "a1", true, false, none, none, false, false, "submitted"⟩
    ⟨some "b2", false, false, none, none, true, false, "closed"⟩
    "a1" "b2" rfl (by decide) (by decide) (by decide) (by decide)
  exact h

/-! ### C10 — follow-company normalization only unchecks -/

theorem followLabels_spec :
    ∀ (labels : List LabelInfo) (st : CbState) (acc : List FollowAction),
    (∀ a ∈ (followLabels labels st acc).2, a ∈ acc ∨ st a.target = true) ∧
    (∀ i, st i = false → (followLabels labels st acc).1 i = false)
  | [], st, acc => ⟨fun a ha => Or.inl ha, fun _ hj => hj⟩
  | lbl :: rest, st, acc => by
      by_cases hk : lbl.text ≠ "" ∧ kwSearch lbl.text = true
      · rcases hft : lbl.forTarget with _ | i
        · rcases hn : lbl.nested with _ | i
          · rcases hrc : lbl.roleC with _ | i
            · have heq : followLabels (lbl :: rest) st acc =
                  followLabels rest st acc := by
                rw [followLabels]; simp [hk, hft, hn, hrc]
              rw [heq]
              exact followLabels_spec rest st acc
            · cases hsi : st i
              · have heq : followLabels (lbl :: rest) st acc = (st, acc) := by
                  rw [followLabels]; simp [hk, hft, hn, hrc, hsi]
                rw [heq]
                exact ⟨fun a ha => Or.inl ha, fun _ hj => hj⟩
              · have heq : followLabels (lbl :: rest) st acc =
                    (updateCb st i false, acc ++ [.forceClick i]) := by
                  rw [followLabels]; simp [hk, hft, hn, hrc, hsi]
                rw [heq]
                refine ⟨fun a ha => ?_, fun j hj => ?_⟩
                · rcases List.mem_append.mp ha with h | h
                  · exact Or.inl h
                  · rcases List.mem_singleton.mp h with rfl
                    exact Or.inr (by simpa [FollowAction.target] using hsi)
                · simp only [updateCb]
                  split_ifs with h
                  · rfl
                  · exact hj
          · cases hsi : st i
            · have heq : followLabels (lbl :: rest) st acc = (st, acc) := by
                rw [followLabels]; simp [hk, hft, hn, hsi]
              rw [heq]
              exact ⟨fun a ha => Or.inl ha, fun _ hj => hj⟩
            · have heq : followLabels (lbl :: rest) st acc =
                  (updateCb st i false, acc ++ [.labelClick i]) := by
                rw [followLabels]; simp [hk, hft, hn, hsi]
              rw [heq]
              refine ⟨fun a ha => ?_, fun j hj => ?_⟩
              · rcases List.mem_append.mp ha with h | h
                · exact Or.inl h
                · rcases List.mem_singleton.mp h with rfl
                  exact Or.inr (by simpa [FollowAction.target] using hsi)
              · simp only [updateCb]
                split_ifs with h
                · rfl
                · exact hj
        · cases hsi : st i
          · have heq : followLabels (lbl :: rest) st acc = (st, acc) := by
              rw [followLabels]; simp [hk, hft, hsi]
            rw [heq]
            exact ⟨fun a ha => Or.inl ha, fun _ hj => hj⟩
          · have heq : followLabels (lbl :: rest) st acc =
                (updateCb st i false, acc ++ [.uncheck i]) := by
              rw [followLabels]; simp [hk, hft, hsi]
            rw [heq]
            refine ⟨fun a ha => ?_, fun j hj => ?_⟩
            · rcases List.mem_append.mp ha with h | h
              · exact Or.inl h
              · rcases List.mem_singleton.mp h with rfl
                exact Or.inr (by simpa [FollowAction.target] using hsi)
            · simp only [updateCb]
              split_ifs with h
              · rfl
              · exact hj
      · have heq : followLabels (lbl :: rest) st acc =
            followLabels rest st acc := by
          rw [followLabels]; simp [hk]
        rw [heq]
        exact followLabels_spec rest st acc

theorem followFallback_spec (m : Modal) (st : CbState)
    (acc : List FollowAction) :
    (∀ a ∈ (followFallback m st acc).2, a ∈ acc ∨ st a.target = true) ∧
    (∀ i, st i = false → (followFallback m st acc).1 i = false) := by
  rcases hrc : m.roleCb with _ | i
  · rcases hfa : findAriaKw m.ariaCbs with _ | j
    · have heq : followFallback m st acc = followLabels m.labels st acc := by
        unfold followFallback; simp [hrc, hfa]
      rw [heq]
      exact followLabels_spec m.labels st acc
    · cases hsj : st j
      · have heq : followFallback m st acc = (st, acc) := by
          unfold followFallback; simp [hrc, hfa, hsj]
        rw [heq]
        exact ⟨fun a ha => Or.inl ha, fun _ hj => hj⟩
      · have heq : followFallback m st acc =
            (updateCb st j false, acc ++ [.uncheck j]) := by
          unfold followFallback; simp [hrc, hfa, hsj]
        rw [heq]
        refine ⟨fun a ha => ?_, fun k hk2 => ?_⟩
        · rcases List.mem_append.mp ha with h | h
          · exact Or.inl h
          · rcases List.mem_singleton.mp h with rfl
            exact Or.inr (by simpa [FollowAction.target] using hsj)
        · simp only [updateCb]
          split_ifs with h
          · rfl
          · exact hk2
  · cases hsi : st i
    · rcases hfa : findAriaKw m.ariaCbs with _ | j
      · have heq : followFallback m st acc = followLabels m.labels st acc := by
          unfold followFallback; simp [hrc, hsi, hfa]
        rw [heq]
        exact followLabels_spec m.labels st acc
      · cases hsj : st j
        · have heq : followFallback m st acc = (st, acc) := by
            unfold followFallback; simp [hrc, hsi, hfa, hsj]
          rw [heq]
          exact ⟨fun a ha => Or.inl ha, fun _ hj => hj⟩
        · have heq : followFallback m st acc =
              (updateCb st j false, acc ++ [.uncheck j]) := by
            unfold followFallback; simp [hrc, hsi, hfa, hsj]
          rw [heq]
          refine ⟨fun a ha => ?_, fun k hk2 => ?_⟩
          · rcases List.mem_append.mp ha with h | h
            · exact Or.inl h
            · rcases List.mem_singleton.mp h with rfl
              exact Or.inr (by simpa [FollowAction.target] using hsj)
          · simp only [updateCb]
            split_ifs with h
            · rfl
            · exact hk2
    · have heq : followFallback m st acc =
          (updateCb st i false, acc ++ [.forceClick i]) := by
        unfold followFallback; simp [hrc, hsi]
      rw [heq]
      refine ⟨fun a ha => ?_, fun k hk2 => ?_⟩
      · rcases List.mem_append.mp ha with h | h
        · exact Or.inl h
        · rcases List.mem_singleton.mp h with rfl
          exact Or.inr (by simpa [FollowAction.target] using hsi)
      · simp only [updateCb]
        split_ifs with h
        · rfl
        · exact hk2

/-- C10: for every modal state, every click, uncheck or checked-property
mutation `ensure_follow_company_unchecked` issues targets a control that
was observed checked, and a follow control that is already unchecked is
never toggled on by any of the fallback methods — it is still unchecked
when the pass returns. -/
theorem C10_follow_only_unchecks (m : Modal) (st : CbState) :
    (∀ a ∈ (ensure_follow_company_unchecked m st).2, st a.target = true) ∧
    (∀ i, st i = false → (ensure_follow_company_unchecked m st).1 i = false) := by
  rcases hdc : m.directCb with _ | i
  · have heq : ensure_follow_company_unchecked m st = followFallback m st [] := by
      unfold ensure_follow_company_unchecked; simp [hdc]
    rw [heq]
    have h := followFallback_spec m st []
    exact ⟨fun a ha => (h.1 a ha).resolve_left (List.not_mem_nil a), h.2⟩
  · cases hsi : st i
    · have heq : ensure_follow_company_unchecked m st = (st, []) := by
        unfold ensure_follow_company_unchecked; simp [hdc, hsi]
      rw [heq]
      exact ⟨fun a ha => absurd ha (List.not_mem_nil a), fun _ hj => hj⟩
    · have heq : ensure_follow_company_unchecked m st =
          (updateCb st i false, [FollowAction.setCheckedFalse i]) := by
        unfold ensure_follow_company_unchecked
        simp [hdc, hsi, updateCb]
      rw [heq]
      refine ⟨fun a ha => ?_, fun j hj => ?_⟩
      · rcases List.mem_singleton.mp ha with rfl
        simpa [FollowAction.target] using hsi
      · simp only [updateCb]
        split_ifs with h
        · rfl
        · exact hj

/-- C10 witness: a mixed state on a modal with a direct follow checkbox —
the checked control 0 is the target of the single issued action, and the
unchecked control 1 is still unchecked when the pass returns. -/
theorem C10_follow_only_unchecks_witness :
    stMixed (FollowAction.target (FollowAction.setCheckedFalse 0)) = true ∧
    (ensure_follow_company_unchecked modalW stMixed).1 1 = false :=
  ⟨(C10_follow_only_unchecks modalW stMixed).1 (FollowAction.setCheckedFalse 0)
      (by decide),
   (C10_follow_only_unchecks modalW stMixed).2 1 rfl⟩

/-! ### C3 — wizard idle-timeout bound -/

theorem cea_idle_spin (b : Behavior) (env : WizardEnv)
    (hpause : b.pause_on_unfilled = false)
    (hvis : ∀ t, (env.view t).visible = true)
    (hsub : ∀ t, (env.view t).submitVisible = false)
    (hrev : ∀ t, (env.view t).reviewVisible = false)
    (hnext : ∀ t, (env.view t).nextVisible = false) :
    ∀ (fuel t0 now : Nat), t0 ≤ now → b.max_idle < now - t0 + 5 * fuel →
    ∃ tr, complete_easy_apply (fuel + 1) b env t0 now =
      some ("timeout", tr) ∧ b.max_idle < tr - t0
  | 0, t0, now, hle, hfuel => by
      have hc : b.max_idle < now - t0 := by omega
      rw [complete_easy_apply]
      simp only [hvis now, hsub now, hrev now, hnext now, hpause]
      simp [hc]
  | fuel + 1, t0, now, hle, hfuel => by
      by_cases hc : b.max_idle < now - t0
      · refine ⟨now, ?_, hc⟩
        rw [complete_easy_apply]
        simp only [hvis now, hsub now, hrev now, hnext now, hpause]
        simp [hc]
      · have step : complete_easy_apply (fuel + 1 + 1) b env t0 now =
            complete_easy_apply (fuel + 1) b env t0 (now + 5) := by
          rw [complete_easy_apply]
          simp only [hvis now, hsub now, hrev now, hnext now, hpause]
          simp [hc]
        rw [step]
        exact cea_idle_spin b env hpause hvis hsub hrev hnext fuel t0 (now + 5)
          (by omega) (by omega)

/-- C3: with `pause_on_unfilled` disabled, a dialog that stays visible and
never shows a Submit, Review or Next control drives `complete_easy_apply`
to return "timeout", and the return happens strictly after the elapsed time
since the last successful control interaction exceeds the `max_idle`
ceiling — never before. -/
theorem C3_wizard_idle_timeout (b : Behavior) (env : WizardEnv)
    (t0 fuel : Nat)
    (hpause : b.pause_on_unfilled = false)
    (hvis : ∀ t, (env.view t).visible = true)
    (hsub : ∀ t, (env.view t).submitVisible = false)
    (hrev : ∀ t, (env.view t).reviewVisible = false)
    (hnext : ∀ t, (env.view t).nextVisible = false)
    (hfuel : b.max_idle < 5 * fuel) :
    (complete_easy_apply (fuel + 1) b env t0 t0).map Prod.fst =
      some "timeout" ∧
    b.max_idle <
      ((complete_easy_apply (fuel + 1) b env t0 t0).map Prod.snd).getD 0 - t0 := by
  obtain ⟨tr, heq, hgt⟩ := cea_idle_spin b env hpause hvis hsub hrev hnext
    fuel t0 t0 le_rfl (by omega)
  rw [heq]
  exact ⟨rfl, by simpa using hgt⟩

/-- C3 witness: a 0.9-second idle ceiling on the inert dialog — timeout is
returned at tick 10, strictly past the ceiling. -/
theorem C3_wizard_idle_timeout_witness :
    (complete_easy_apply 3 ⟨false, 9, false⟩ envW 0 0).map Prod.fst =
      some "timeout" ∧
    (9 : Nat) <
      ((complete_easy_apply 3 ⟨false, 9, false⟩ envW 0 0).map Prod.snd).getD 0 - 0 :=
  C3_wizard_idle_timeout ⟨false, 9, false⟩ envW 0 2 rfl (fun _ => rfl)
    (fun _ => rfl) (fun _ => rfl) (fun _ => rfl) (by decide)

end LinkedinBot
